import Mathlib

/-!
Verification of the resource-capacity accounting and allocation engine of
red-alert/nova, together with the XenServer agent's Diffie-Hellman helper.

The repository ships only the placement test fixtures
(`nova/tests/functional/api/openstack/placement/fixtures/gabbits.py`) and the
agent plugin (`plugins/xenserver/xenapi/etc/xapi.d/plugins/agent.py`).  The
engine itself (Capacity Model, Allocation Ledger, Candidate Generator) is not
part of the source tree, so those components are modelled from the
specification; the fixture topologies and the `SimpleDH` class are embedded
directly from the source.
-/

/-- Modelled from the spec: the `Inventory` record of the Capacity Model
(spec section 3).  The engine code holding this record is not under `src/`;
fields follow the spec and the fixture constructors in `gabbits.py`.
`allocation_ratio` is an exact rational, as the spec directs ("a rational
multiplier applied before flooring"), carried as an explicit
numerator/denominator pair so every computation stays executable. -/
structure Inventory where
  total : Nat
  reserved : Nat
  min_unit : Nat
  max_unit : Nat
  step_size : Nat
  allocation_ratio_num : Nat
  allocation_ratio_den : Nat
deriving DecidableEq

/-- The `allocation_ratio` of an inventory as a rational number. -/
def allocation_ratio (inv : Inventory) : ℚ :=
  (inv.allocation_ratio_num : ℚ) / (inv.allocation_ratio_den : ℚ)

/-- Modelled from the spec: usable capacity of an inventory,
`floor((total - reserved) * allocation_ratio)` (spec sections 3 and 4.1),
computed with exact integer arithmetic; dividing by the ratio's denominator
with integer (Euclidean) division is the floor for a positive denominator,
as proved in the C1 theorem below. -/
def usable_capacity (inv : Inventory) : ℤ :=
  ((inv.total : ℤ) - (inv.reserved : ℤ)) * (inv.allocation_ratio_num : ℤ) /
    (inv.allocation_ratio_den : ℤ)

/-- Modelled from the spec: the spec-section-3 inventory invariants:
`0 ≤ reserved ≤ total`, `min_unit ≤ max_unit ≤ (total - reserved)`,
`step_size ≥ 1`, `allocation_ratio > 0` (the `0 ≤ reserved` conjunct is
automatic over `Nat`; the ratio is positive iff numerator and denominator
are). -/
def inv_invariants (inv : Inventory) : Prop :=
  inv.reserved ≤ inv.total ∧
  inv.min_unit ≤ inv.max_unit ∧
  inv.max_unit ≤ inv.total - inv.reserved ∧
  1 ≤ inv.step_size ∧
  0 < inv.allocation_ratio_num ∧
  0 < inv.allocation_ratio_den

instance (inv : Inventory) : Decidable (inv_invariants inv) := by
  unfold inv_invariants
  infer_instance

/-- Modelled from the spec: the tagged violations of `validate_amount`
(spec section 4.1). -/
inductive Violation
| tooSmall
| tooLarge
| notStepAligned
deriving DecidableEq

/-- Modelled from the spec: `validate_amount(inventory, amount)`
(spec section 4.1).  `none` is the `ok` outcome; a `some` carries the tagged
violation.  The pure function checks the min-unit, max-unit and step-size
bounds of the inventory. -/
def validate_amount (inv : Inventory) (a : Nat) : Option Violation :=
  if a < inv.min_unit then some .tooSmall
  else if inv.max_unit < a then some .tooLarge
  else if a % inv.step_size ≠ 0 then some .notStepAligned
  else none

/-- Modelled from the spec: an allocation row
`(consumer, provider, resource-class, amount)` (spec section 3).  Providers,
consumers and resource classes are identified by numeric keys standing for
their UUIDs/names. -/
structure Allocation where
  consumer : Nat
  provider : Nat
  resource_class : Nat
  amount : Nat
deriving DecidableEq

/-- Modelled from the spec: the persisted state of the engine (spec section
6): an inventory table keyed by (provider, resource class) and the allocation
table of the Allocation Ledger. -/
structure Store where
  inventories : List ((Nat × Nat) × Inventory)
  allocations : List Allocation
deriving DecidableEq

/-- Look up the inventory of a (provider, resource class) pair in an
inventory table. -/
def lookup_inv : List ((Nat × Nat) × Inventory) → Nat → Nat → Option Inventory
| [], _, _ => none
| e :: l, p, rc => if e.1 = (p, rc) then some e.2 else lookup_inv l p rc

/-- Modelled from the spec: inventory lookup in the store. -/
def inv_lookup (s : Store) (p rc : Nat) : Option Inventory :=
  lookup_inv s.inventories p rc

/-- Sum of the amounts of the allocation rows of a (provider, resource class)
pair in a row list. -/
def usage_of (l : List Allocation) (p rc : Nat) : Nat :=
  ((l.filter (fun a => decide (a.provider = p ∧ a.resource_class = rc))).map
    (fun a => a.amount)).sum

/-- Modelled from the spec: `usage(provider, resource_class)` — the sum of
current allocations (spec section 4.4). -/
def usage (s : Store) (p rc : Nat) : Nat :=
  usage_of s.allocations p rc

/-- Modelled from the spec: the typed errors of the mutating operations
(spec sections 4.4 and 7). -/
inductive LedgerError
| capacityExceeded (p rc : Nat)
| invalidAmount (p rc : Nat)
| notFound (p rc : Nat)
| concurrentUpdate
| invalidInventory (p rc : Nat)
deriving DecidableEq

/-- Keep, per (provider, resource class) key, only the first row of a
submitted allocation list; `seen` accumulates the keys already taken.  The
allocation table is keyed by (consumer, provider, resource class) (spec
section 6), so a replace for one consumer holds one row per such key. -/
def dedupe_rows : List (Nat × Nat × Nat) → List (Nat × Nat) → List (Nat × Nat × Nat)
| [], _ => []
| r :: rs, seen =>
  if (r.1, r.2.1) ∈ seen then dedupe_rows rs seen
  else r :: dedupe_rows rs ((r.1, r.2.1) :: seen)

/-- Modelled from the spec: the per-row check of `replace_allocations`
(spec section 4.4), run against the prospective store: the inventory must
exist, the amount must pass `validate_amount`, and the resulting usage of the
touched (provider, resource class) must not exceed usable capacity. -/
def row_check (s : Store) (r : Nat × Nat × Nat) : Option LedgerError :=
  match inv_lookup s r.1 r.2.1 with
  | none => some (.notFound r.1 r.2.1)
  | some inv =>
    match validate_amount inv r.2.2 with
    | some _ => some (.invalidAmount r.1 r.2.1)
    | none =>
      if (usage s r.1 r.2.1 : ℤ) ≤ usable_capacity inv then none
      else some (.capacityExceeded r.1 r.2.1)

/-- The prospective store of a `replace_allocations` call: the consumer's old
rows removed, the submitted rows (one per (provider, resource class) key)
added. -/
def replace_target (s : Store) (c : Nat) (ns : List (Nat × Nat × Nat)) : Store :=
  ⟨s.inventories,
   s.allocations.filter (fun a => decide (a.consumer ≠ c)) ++
     (dedupe_rows ns []).map (fun r => ⟨c, r.1, r.2.1, r.2.2⟩)⟩

/-- Modelled from the spec: `replace_allocations(consumer, new_set)`
(spec section 4.4).  The consumer's old rows are removed, the submitted rows
(one per key) are added, every touched pair is validated against the
resulting usage, and the new store is returned only if every check passes —
one atomic unit, no partial application on failure. -/
def replace_allocations (s : Store) (c : Nat) (ns : List (Nat × Nat × Nat)) :
    Except LedgerError Store :=
  match (dedupe_rows ns []).findSome? (row_check (replace_target s c ns)) with
  | some e => .error e
  | none => .ok (replace_target s c ns)

/-- Modelled from the spec: `delete_allocations(consumer)`, equivalent to
`replace_allocations(consumer, [])` (spec section 4.4). -/
def delete_allocations (s : Store) (c : Nat) : Except LedgerError Store :=
  replace_allocations s c []

/-- Modelled from the spec: setting the inventory of one (provider, resource
class) pair (spec section 6).  The inventory record is validated (the bounds
actually enforced on accepted inventories: `reserved ≤ total`,
`min_unit ≤ max_unit`, `step_size ≥ 1`, `allocation_ratio > 0` — see the
fixture's shared-storage inventory, whose defaulted `max_unit = total`
exceeds `total - reserved`), and shrinking capacity below current usage is
rejected.  The pair's entry is replaced, keeping the table keyed by
(provider, resource class). -/
def add_inventory (s : Store) (p rc : Nat) (inv : Inventory) :
    Except LedgerError Store :=
  if (inv.reserved ≤ inv.total ∧ inv.min_unit ≤ inv.max_unit ∧
      1 ≤ inv.step_size ∧ 0 < inv.allocation_ratio_num ∧ 0 < inv.allocation_ratio_den) ∧
     ((usage s p rc : ℤ) ≤ usable_capacity inv) then
    .ok ⟨(s.inventories.filter (fun e => decide (e.1 ≠ (p, rc)))) ++ [((p, rc), inv)],
         s.allocations⟩
  else .error (.invalidInventory p rc)

/-- Run `replace_allocations` as a state transformer: the store is updated on
success and untouched on error. -/
def apply_replace (s : Store) (c : Nat) (ns : List (Nat × Nat × Nat)) : Store :=
  match replace_allocations s c ns with
  | .ok s2 => s2
  | .error _ => s

/-- The capacity invariant of the Allocation Ledger: for every inventory
entry, the summed allocations of its (provider, resource class) pair do not
exceed its usable capacity (spec section 8). -/
def store_invariant (s : Store) : Prop :=
  ∀ e ∈ s.inventories, (usage s e.1.1 e.1.2 : ℤ) ≤ usable_capacity e.2

instance (s : Store) : Decidable (store_invariant s) := by
  unfold store_invariant
  infer_instance

/-- The inventory table is keyed by (provider, resource class): keys are
pairwise distinct. -/
def inv_keys_nodup (s : Store) : Prop :=
  (s.inventories.map (fun e => e.1)).Nodup

/-- The key of an allocation row. -/
def alloc_key (a : Allocation) : Nat × Nat × Nat :=
  (a.consumer, a.provider, a.resource_class)

/-- The allocation table is keyed by (consumer, provider, resource class):
at most one row per key. -/
def alloc_keys_unique (s : Store) : Prop :=
  s.allocations.Pairwise (fun a b => alloc_key a ≠ alloc_key b)

/-- Modelled from the spec: the states of the engine reachable from the
empty store through the mutating operations (inventory writes and atomic
allocation replacement, spec sections 4.4 and 6). -/
inductive Reachable : Store → Prop
| empty : Reachable ⟨[], []⟩
| add_inv {s : Store} {p rc : Nat} {inv : Inventory} {s2 : Store} :
    Reachable s → add_inventory s p rc inv = .ok s2 → Reachable s2
| replace {s : Store} {c : Nat} {ns : List (Nat × Nat × Nat)} {s2 : Store} :
    Reachable s → replace_allocations s c ns = .ok s2 → Reachable s2

/-- Modelled from the spec: the Provider Topology and Trait Index state the
Candidate Generator reads (spec sections 4.2, 4.3, 4.5): the provider set,
the parent relation of the provider forest, aggregate membership and trait
assignment.  Providers and aggregates are identified by numeric keys, traits
by their names. -/
structure Topology where
  providers : List Nat
  parent : List (Nat × Nat)
  aggregates : List (Nat × Nat)
  traits : List (Nat × String)

/-- The parent of a provider, if any. -/
def parent_of (t : Topology) (p : Nat) : Option Nat :=
  (t.parent.find? (fun e => decide (e.1 = p))).map (fun e => e.2)

/-- The chain of ancestors of a provider (itself included), bounded by fuel. -/
def ancestor_chain (t : Topology) : Nat → Nat → List Nat
| 0, p => [p]
| fuel + 1, p =>
  match parent_of t p with
  | none => [p]
  | some q => p :: ancestor_chain t fuel q

/-- Modelled from the spec: membership of `subtree_of(root)`
(spec section 4.2): `p` lies in the subtree of `root`. -/
def in_tree (t : Topology) (root p : Nat) : Bool :=
  decide (root ∈ ancestor_chain t t.providers.length p)

/-- Aggregates a provider belongs to. -/
def aggs_of (t : Topology) (p : Nat) : List Nat :=
  (t.aggregates.filter (fun e => decide (e.1 = p))).map (fun e => e.2)

/-- Two providers share at least one aggregate. -/
def shares_agg (t : Topology) (p q : Nat) : Bool :=
  (aggs_of t p).any (fun a => decide (a ∈ aggs_of t q))

/-- Modelled from the spec: the reserved trait marking a sharing provider
(spec section 3); the fixture uses `MISC_SHARES_VIA_AGGREGATE`. -/
def is_sharing (t : Topology) (p : Nat) : Bool :=
  decide ((p, "MISC_SHARES_VIA_AGGREGATE") ∈ t.traits)

/-- Modelled from the spec: sharing-provider resolution (spec sections 4.2
and 4.5 step 2): `p` is a sharing provider joined via a common aggregate to
some member of `root`'s subtree. -/
def sharing_reachable (t : Topology) (root p : Nat) : Bool :=
  is_sharing t p && t.providers.any (fun q => in_tree t root q && shares_agg t p q)

/-- Modelled from the spec: a provider can supply `amt` units of `rc`
(spec section 4.5 step 1): it holds inventory of the class, the amount
passes `validate_amount`, and remaining usable capacity suffices
(`usable_capacity - usage ≥ requested_amount`). -/
def can_supply (s : Store) (p rc amt : Nat) : Bool :=
  match inv_lookup s p rc with
  | none => false
  | some inv =>
    match validate_amount inv amt with
    | some _ => false
    | none => decide (((usage s p rc : ℤ) + (amt : ℤ)) ≤ usable_capacity inv)

/-- Modelled from the spec: a provider is eligible to supply a class of a
group anchored at `root` (spec section 4.5 steps 1-2): it is local to the
anchor subtree or reachable through sharing-provider resolution, and it can
supply the amount. -/
def eligible (t : Topology) (s : Store) (root p rc amt : Nat) : Bool :=
  (in_tree t root p || sharing_reachable t root p) && can_supply s p rc amt

/-- Modelled from the spec: the Candidate Generator for a single request
group anchored at `root` (spec section 4.5): each requested class is
assigned an eligible provider; every complete assignment is one allocation
candidate, a list of (provider, resource class, amount) rows. -/
def allocation_candidates (t : Topology) (s : Store) (root : Nat) :
    List (Nat × Nat) → List (List (Nat × Nat × Nat))
| [] => [[]]
| (rc, amt) :: rest =>
  (t.providers.filter (fun p => eligible t s root p rc amt)).flatMap
    (fun p => (allocation_candidates t s root rest).map (fun tail => (p, rc, amt) :: tail))

/-- Resource-class key of `VCPU` (fixture code `fields.ResourceClass.VCPU`). -/
def VCPU : Nat := 1

/-- Resource-class key of `MEMORY_MB`. -/
def MEMORY_MB : Nat := 2

/-- Resource-class key of `DISK_GB`. -/
def DISK_GB : Nat := 3

/-- Resource-class key of `SRIOV_NET_VF`. -/
def SRIOV_NET_VF : Nat := 4

/-- Compute-node VCPU inventory of `SharedStorageFixture.start_fixture`:
`tb.add_inventory(cn, VCPU, 24, allocation_ratio=16.0)`; `max_unit` defaults
to `total`, the other fields to `reserved=0`, `min_unit=1`, `step_size=1`. -/
def cn_vcpu_inventory : Inventory := ⟨24, 0, 1, 24, 1, 16, 1⟩

/-- Compute-node MEMORY_MB inventory of `SharedStorageFixture.start_fixture`:
`tb.add_inventory(cn, MEMORY_MB, 128 * 1024, allocation_ratio=1.5)`. -/
def cn_memory_inventory : Inventory := ⟨131072, 0, 1, 131072, 1, 3, 2⟩

/-- Shared-storage DISK_GB inventory of `SharedStorageFixture.start_fixture`:
`tb.add_inventory(ss, DISK_GB, 2000, reserved=100, allocation_ratio=1.0)`;
`max_unit` defaults to `total = 2000`. -/
def ss_disk_inventory : Inventory := ⟨2000, 100, 1, 2000, 1, 1, 1⟩

/-- Physical-function SRIOV_NET_VF inventory of
`SharedStorageFixture.start_fixture`:
`tb.add_inventory(pf, SRIOV_NET_VF, 8, allocation_ratio=1.0)`. -/
def pf_vf_inventory : Inventory := ⟨8, 0, 1, 8, 1, 1, 1⟩

/-- The provider graph of `SharedStorageFixture.start_fixture`: compute
nodes `cn1 = 1` and `cn2 = 2` and sharing storage `ss = 3` joined by one
aggregate (key 0); NUMA children `numa1_1 = 11`, `numa1_2 = 12`,
`numa2_1 = 21`, `numa2_2 = 22` under the compute nodes; physical functions
`pf1_1 = 111`, `pf1_2 = 121`, `pf2_1 = 211`, `pf2_2 = 221` under the NUMA
nodes; traits per the fixture. -/
def shared_storage_topology : Topology :=
  ⟨[1, 2, 3, 11, 12, 21, 22, 111, 121, 211, 221],
   [(11, 1), (12, 1), (21, 2), (22, 2), (111, 11), (121, 12), (211, 21), (221, 22)],
   [(1, 0), (2, 0), (3, 0)],
   [(1, "HW_CPU_X86_SSE"), (1, "HW_CPU_X86_SSE2"), (3, "MISC_SHARES_VIA_AGGREGATE")]⟩

/-- The inventory state of `SharedStorageFixture.start_fixture`, one entry
per `tb.add_inventory` call, with an empty allocation ledger. -/
def shared_storage_store : Store :=
  ⟨[((1, VCPU), cn_vcpu_inventory),
    ((1, MEMORY_MB), cn_memory_inventory),
    ((2, VCPU), cn_vcpu_inventory),
    ((2, MEMORY_MB), cn_memory_inventory),
    ((3, DISK_GB), ss_disk_inventory),
    ((111, SRIOV_NET_VF), pf_vf_inventory),
    ((121, SRIOV_NET_VF), pf_vf_inventory),
    ((211, SRIOV_NET_VF), pf_vf_inventory),
    ((221, SRIOV_NET_VF), pf_vf_inventory)],
   []⟩

/-- The `SimpleDH` Diffie-Hellman state of
`plugins/xenserver/xenapi/etc/xapi.d/plugins/agent.py`: fields `_prime`,
`_base` and `_secret` of the constructor. -/
structure SimpleDH where
  prime : Nat
  base : Nat
  secret : Nat

/-- The default prime of `SimpleDH.__init__`. -/
def simple_dh_default_prime : Nat := 162259276829213363391578010288127

/-- The default base of `SimpleDH.__init__`. -/
def simple_dh_default_base : Nat := 5

/-- `SimpleDH.get_public`: `(self._base ** self._secret) % self._prime`. -/
def SimpleDH.get_public (d : SimpleDH) : Nat :=
  d.base ^ d.secret % d.prime

/-- `SimpleDH.compute_shared`: `(other ** self._secret) % self._prime`. -/
def SimpleDH.compute_shared (d : SimpleDH) (other : Nat) : Nat :=
  other ^ d.secret % d.prime

/-- C1: for every inventory satisfying the spec invariants, `usable_capacity`
equals `floor((total - reserved) * allocation_ratio)` over exact rationals;
it is the floor (bracketed by the exact rational product, so flooring and not
rounding) and it is non-negative. -/
theorem C1_usable_capacity_is_floor (inv : Inventory) (h : inv_invariants inv) :
    usable_capacity inv = ⌊(((inv.total : ℚ) - (inv.reserved : ℚ)) * allocation_ratio inv)⌋ ∧
    (usable_capacity inv : ℚ) ≤ ((inv.total : ℚ) - (inv.reserved : ℚ)) * allocation_ratio inv ∧
    ((inv.total : ℚ) - (inv.reserved : ℚ)) * allocation_ratio inv < usable_capacity inv + 1 ∧
    0 ≤ usable_capacity inv := by
  obtain ⟨hrt, -, -, -, hnum, hden⟩ := h
  have hcast : ((inv.total : ℚ) - (inv.reserved : ℚ)) * allocation_ratio inv =
      ((((inv.total : ℤ) - (inv.reserved : ℤ)) * (inv.allocation_ratio_num : ℤ) : ℤ) : ℚ) /
        ((inv.allocation_ratio_den : ℕ) : ℚ) := by
    rw [allocation_ratio]
    push_cast
    ring
  have hfloor : usable_capacity inv =
      ⌊(((inv.total : ℚ) - (inv.reserved : ℚ)) * allocation_ratio inv)⌋ := by
    rw [hcast, Rat.floor_intCast_div_natCast]
    rfl
  refine ⟨hfloor, ?_, ?_, ?_⟩
  · rw [hfloor]
    exact Int.floor_le _
  · rw [hfloor]
    exact Int.lt_floor_add_one _
  · rw [hfloor]
    apply Int.floor_nonneg.mpr
    have hle : (inv.reserved : ℚ) ≤ (inv.total : ℚ) := by exact_mod_cast hrt
    have hr : 0 ≤ allocation_ratio inv :=
      div_nonneg (Nat.cast_nonneg _) (Nat.cast_nonneg _)
    exact mul_nonneg (by linarith) hr

/-- Witness for C1 on a concrete inventory satisfying the invariants. -/
theorem C1_usable_capacity_is_floor_witness :
    inv_invariants ⟨10, 2, 1, 8, 1, 2, 1⟩ ∧ 0 ≤ usable_capacity ⟨10, 2, 1, 8, 1, 2, 1⟩ :=
  ⟨by decide, (C1_usable_capacity_is_floor ⟨10, 2, 1, 8, 1, 2, 1⟩ (by decide)).2.2.2⟩

/-- C2: an amount `a` passes validation against an inventory with current
usage `used` (the pure `validate_amount` check plus the ledger's capacity
check) iff `min_unit ≤ a ≤ max_unit`, `a % step_size = 0` and
`used + a ≤ usable_capacity`; the only failure outcomes of the pure function
are the tagged violations of `Violation`. -/
theorem C2_validate_amount_iff (inv : Inventory) (used a : Nat) :
    (validate_amount inv a = none ∧ ((used : ℤ) + (a : ℤ) ≤ usable_capacity inv)) ↔
    (inv.min_unit ≤ a ∧ a ≤ inv.max_unit ∧ a % inv.step_size = 0 ∧
      ((used : ℤ) + (a : ℤ) ≤ usable_capacity inv)) := by
  unfold validate_amount
  split_ifs with h1 h2 h3 <;> simp <;> omega

theorem usage_of_nil (p rc : Nat) : usage_of [] p rc = 0 := rfl

theorem usage_of_cons (a : Allocation) (l : List Allocation) (p rc : Nat) :
    usage_of (a :: l) p rc =
      (if a.provider = p ∧ a.resource_class = rc then a.amount else 0) + usage_of l p rc := by
  by_cases h : a.provider = p ∧ a.resource_class = rc <;>
    simp [usage_of, List.filter_cons, h]

theorem usage_of_append (l1 l2 : List Allocation) (p rc : Nat) :
    usage_of (l1 ++ l2) p rc = usage_of l1 p rc + usage_of l2 p rc := by
  simp [usage_of, List.filter_append]

theorem usage_of_filter_le (q : Allocation → Bool) (l : List Allocation) (p rc : Nat) :
    usage_of (l.filter q) p rc ≤ usage_of l p rc := by
  induction l with
  | nil => simp [usage_of]
  | cons a l ih =>
    rw [usage_of_cons]
    by_cases hq : q a = true
    · rw [List.filter_cons_of_pos hq, usage_of_cons]
      split_ifs <;> omega
    · rw [List.filter_cons_of_neg hq]
      split_ifs <;> omega

theorem usage_of_eq_zero (l : List Allocation) (p rc : Nat)
    (h : ∀ a ∈ l, ¬(a.provider = p ∧ a.resource_class = rc)) :
    usage_of l p rc = 0 := by
  induction l with
  | nil => rfl
  | cons a l ih =>
    rw [usage_of_cons, if_neg (h a (List.mem_cons_self a l))]
    simp only [Nat.zero_add]
    exact ih fun b hb => h b (List.mem_cons_of_mem a hb)

theorem lookup_inv_of_mem {l : List ((Nat × Nat) × Inventory)}
    (hnd : (l.map (fun e => e.1)).Nodup) {e : (Nat × Nat) × Inventory} (he : e ∈ l) :
    lookup_inv l e.1.1 e.1.2 = some e.2 := by
  induction l with
  | nil => cases he
  | cons a l ih =>
    rw [List.map_cons, List.nodup_cons] at hnd
    rcases List.mem_cons.mp he with rfl | hmem
    · rw [lookup_inv, if_pos rfl]
    · have hne : a.1 ≠ (e.1.1, e.1.2) := by
        intro hcontra
        apply hnd.1
        rw [hcontra, Prod.mk.eta]
        exact List.mem_map.mpr ⟨e, hmem, rfl⟩
      rw [lookup_inv, if_neg hne]
      exact ih hnd.2 hmem

theorem dedupe_rows_not_seen :
    ∀ (ns : List (Nat × Nat × Nat)) (seen : List (Nat × Nat)) (r : Nat × Nat × Nat),
      r ∈ dedupe_rows ns seen → (r.1, r.2.1) ∉ seen := by
  intro ns
  induction ns with
  | nil => intro seen r hr; cases hr
  | cons x xs ih =>
    intro seen r hr
    rw [dedupe_rows] at hr
    split at hr
    · exact ih seen r hr
    · rcases List.mem_cons.mp hr with rfl | hmem
      · assumption
      · intro hcontra
        exact ih _ r hmem (List.mem_cons_of_mem _ hcontra)

theorem dedupe_rows_pairwise :
    ∀ (ns : List (Nat × Nat × Nat)) (seen : List (Nat × Nat)),
      (dedupe_rows ns seen).Pairwise (fun a b => (a.1, a.2.1) ≠ (b.1, b.2.1)) := by
  intro ns
  induction ns with
  | nil => intro seen; exact List.Pairwise.nil
  | cons x xs ih =>
    intro seen
    rw [dedupe_rows]
    split
    · exact ih seen
    · refine List.Pairwise.cons ?_ (ih _)
      intro b hb hcontra
      exact dedupe_rows_not_seen xs _ b hb (by rw [← hcontra]; exact List.mem_cons_self _ _)

theorem replace_ok {s : Store} {c : Nat} {ns : List (Nat × Nat × Nat)} {s2 : Store}
    (h : replace_allocations s c ns = .ok s2) :
    s2 = replace_target s c ns ∧
    ∀ r ∈ dedupe_rows ns [], row_check (replace_target s c ns) r = none := by
  rw [replace_allocations] at h
  split at h
  · cases h
  · cases h
    exact ⟨rfl, List.findSome?_eq_none_iff.mp (by assumption)⟩

theorem row_check_none {s : Store} {r : Nat × Nat × Nat} {inv : Inventory}
    (hl : inv_lookup s r.1 r.2.1 = some inv) (h : row_check s r = none) :
    validate_amount inv r.2.2 = none ∧ (usage s r.1 r.2.1 : ℤ) ≤ usable_capacity inv := by
  rw [row_check] at h
  split at h
  · rename_i heq
    rw [hl] at heq
    cases heq
  · rename_i inv2 heq
    rw [hl] at heq
    injection heq with heq
    subst heq
    split at h
    · cases h
    · rename_i hv
      split at h
      · exact ⟨hv, by assumption⟩
      · cases h

theorem add_inventory_ok {s : Store} {p rc : Nat} {inv : Inventory} {s2 : Store}
    (h : add_inventory s p rc inv = .ok s2) :
    (inv.reserved ≤ inv.total ∧ inv.min_unit ≤ inv.max_unit ∧
      1 ≤ inv.step_size ∧ 0 < inv.allocation_ratio_num ∧ 0 < inv.allocation_ratio_den) ∧
    ((usage s p rc : ℤ) ≤ usable_capacity inv) ∧
    s2 = ⟨(s.inventories.filter (fun e => decide (e.1 ≠ (p, rc)))) ++ [((p, rc), inv)],
          s.allocations⟩ := by
  rw [add_inventory] at h
  split_ifs at h with hc
  · cases h
    exact ⟨hc.1, hc.2, rfl⟩

theorem add_inv_preserves {s : Store} {p rc : Nat} {inv : Inventory} {s2 : Store}
    (hk : inv_keys_nodup s) (hs : store_invariant s) (hu : alloc_keys_unique s)
    (h : add_inventory s p rc inv = .ok s2) :
    inv_keys_nodup s2 ∧ store_invariant s2 ∧ alloc_keys_unique s2 := by
  obtain ⟨hbounds, hcap, rfl⟩ := add_inventory_ok h
  refine ⟨?_, ?_, hu⟩
  · unfold inv_keys_nodup at hk ⊢
    rw [List.map_append, List.nodup_append]
    refine ⟨List.Nodup.sublist (List.Sublist.map _ (List.filter_sublist _)) hk, by simp, ?_⟩
    intro a ha hb
    simp only [List.map_cons, List.map_nil, List.mem_singleton] at hb
    obtain ⟨e, he, rfl⟩ := List.mem_map.mp ha
    rw [List.mem_filter] at he
    have hne : e.1 ≠ (p, rc) := by simpa using he.2
    exact hne hb
  · intro e he
    rcases List.mem_append.mp he with hmem | hmem
    · rw [List.mem_filter] at hmem
      exact hs e hmem.1
    · rw [List.mem_singleton] at hmem
      subst hmem
      exact hcap

theorem replace_preserves {s : Store} {c : Nat} {ns : List (Nat × Nat × Nat)} {s2 : Store}
    (hk : inv_keys_nodup s) (hs : store_invariant s) (hu : alloc_keys_unique s)
    (h : replace_allocations s c ns = .ok s2) :
    inv_keys_nodup s2 ∧ store_invariant s2 ∧ alloc_keys_unique s2 := by
  obtain ⟨rfl, hchecks⟩ := replace_ok h
  refine ⟨hk, ?_, ?_⟩
  · intro e he
    by_cases hex : ∃ r ∈ dedupe_rows ns [], (r.1, r.2.1) = (e.1.1, e.1.2)
    · obtain ⟨r, hr, hkey⟩ := hex
      have h1 : r.1 = e.1.1 := congrArg Prod.fst hkey
      have h2 : r.2.1 = e.1.2 := congrArg Prod.snd hkey
      have hl : inv_lookup (replace_target s c ns) r.1 r.2.1 = some e.2 := by
        show lookup_inv s.inventories r.1 r.2.1 = some e.2
        rw [h1, h2]
        exact lookup_inv_of_mem hk he
      obtain ⟨-, hcap⟩ := row_check_none hl (hchecks r hr)
      rw [h1, h2] at hcap
      exact hcap
    · push_neg at hex
      have hz : usage_of ((dedupe_rows ns []).map
          (fun r => (⟨c, r.1, r.2.1, r.2.2⟩ : Allocation))) e.1.1 e.1.2 = 0 := by
        apply usage_of_eq_zero
        intro a ha hmatch
        obtain ⟨r, hr, rfl⟩ := List.mem_map.mp ha
        exact hex r hr (by rw [show r.1 = e.1.1 from hmatch.1, show r.2.1 = e.1.2 from hmatch.2])
      have hle : usage (replace_target s c ns) e.1.1 e.1.2 ≤ usage s e.1.1 e.1.2 := by
        simp only [usage, replace_target]
        rw [usage_of_append, hz]
        simpa using usage_of_filter_le _ s.allocations e.1.1 e.1.2
      calc ((usage (replace_target s c ns) e.1.1 e.1.2 : ℤ))
          ≤ (usage s e.1.1 e.1.2 : ℤ) := by exact_mod_cast hle
        _ ≤ usable_capacity e.2 := hs e he
  · show ((s.allocations.filter _) ++ (dedupe_rows ns []).map _).Pairwise _
    rw [List.pairwise_append]
    refine ⟨List.Pairwise.sublist (List.filter_sublist _) hu, ?_, ?_⟩
    · rw [List.pairwise_map]
      apply List.Pairwise.imp ?_ (dedupe_rows_pairwise ns [])
      intro a b hab hcontra
      exact hab (congrArg Prod.snd hcontra)
    · intro a ha b hb
      rw [List.mem_filter] at ha
      obtain ⟨r, hr, rfl⟩ := List.mem_map.mp hb
      have hac : a.consumer ≠ c := by simpa using ha.2
      intro hcontra
      exact hac (congrArg (fun k : Nat × Nat × Nat => k.1) hcontra)

theorem reachable_all {s : Store} (h : Reachable s) :
    inv_keys_nodup s ∧ store_invariant s ∧ alloc_keys_unique s := by
  induction h with
  | empty =>
    refine ⟨List.nodup_nil, ?_, List.Pairwise.nil⟩
    intro e he
    cases he
  | add_inv hr hop ih => exact add_inv_preserves ih.1 ih.2.1 ih.2.2 hop
  | replace hr hop ih => exact replace_preserves ih.1 ih.2.1 ih.2.2 hop

/-- C3: in every reachable state of the allocation ledger, for every
(provider, resource class) inventory entry, the sum of allocation amounts
does not exceed usable capacity; the reachability induction shows every
operation (in particular every successful `replace_allocations`) preserves
the invariant. -/
theorem C3_sum_le_capacity (s : Store) (h : Reachable s) : store_invariant s :=
  (reachable_all h).2.1

/-- Witness for C3: a state reached by an inventory write followed by a
successful `replace_allocations` satisfies the capacity invariant. -/
theorem C3_sum_le_capacity_witness :
    store_invariant ⟨[((1, 3), ⟨2048, 0, 10, 600, 10, 1, 1⟩)], [⟨7, 1, 3, 500⟩]⟩ :=
  C3_sum_le_capacity _
    (Reachable.replace
      (Reachable.add_inv Reachable.empty
        (show add_inventory ⟨[], []⟩ 1 3 ⟨2048, 0, 10, 600, 10, 1, 1⟩ =
            .ok ⟨[((1, 3), ⟨2048, 0, 10, 600, 10, 1, 1⟩)], []⟩ by rfl))
      (show replace_allocations ⟨[((1, 3), ⟨2048, 0, 10, 600, 10, 1, 1⟩)], []⟩ 7 [(1, 3, 500)] =
          .ok ⟨[((1, 3), ⟨2048, 0, 10, 600, 10, 1, 1⟩)], [⟨7, 1, 3, 500⟩]⟩ by rfl))

/-- C4: if `replace_allocations` returns any error, the store is unchanged —
running it as a state transformer leaves every allocation row as it was
(all-or-nothing). -/
theorem C4_error_preserves_store (s : Store) (c : Nat) (ns : List (Nat × Nat × Nat))
    (e : LedgerError) (h : replace_allocations s c ns = .error e) :
    apply_replace s c ns = s := by
  rw [apply_replace, h]

/-- Witness for C4: a failing replace (unknown inventory) leaves the store
unchanged. -/
theorem C4_error_preserves_store_witness :
    replace_allocations ⟨[], []⟩ 9 [(5, 5, 5)] = .error (.notFound 5 5) ∧
    apply_replace ⟨[], []⟩ 9 [(5, 5, 5)] = ⟨[], []⟩ :=
  ⟨by rfl, C4_error_preserves_store _ _ _ _ (by rfl)⟩

/-- C5: on the `SharedStorageFixture` topology, the request
{VCPU:2, MEMORY_MB:256, DISK_GB:10} anchored at `cn1` yields exactly one
allocation candidate: `cn1` supplies VCPU and MEMORY_MB, the sharing
provider `ss` supplies DISK_GB. -/
theorem C5_shared_storage_single_candidate :
    allocation_candidates shared_storage_topology shared_storage_store 1
      [(VCPU, 2), (MEMORY_MB, 256), (DISK_GB, 10)] =
    [[(1, VCPU, 2), (1, MEMORY_MB, 256), (3, DISK_GB, 10)]] := by
  decide

/-- C6: requesting DISK_GB:2000 from `ss` (usable capacity
`(2000 - 100) * 1 = 1900`) fails with `CapacityExceeded`; the engine returns
the error rather than truncating the amount. -/
theorem C6_overcommit_rejected :
    replace_allocations shared_storage_store 77 [(3, DISK_GB, 2000)] =
      .error (.capacityExceeded 3 DISK_GB) ∧
    usable_capacity ss_disk_inventory = 1900 := by
  exact ⟨by rfl, by decide⟩

/-- C7 counterexample: the shared-storage inventory created by the fixture
(`total = 2000`, `reserved = 100`, `max_unit` defaulted to `total = 2000`)
is accepted into the store, yet violates the claimed invariant chain
`min_unit ≤ max_unit ≤ (total - reserved)` since `2000 > 1900`. -/
theorem C7_counterexample :
    add_inventory ⟨[], []⟩ 3 DISK_GB ss_disk_inventory =
      .ok ⟨[((3, DISK_GB), ss_disk_inventory)], []⟩ ∧
    ¬ inv_invariants ss_disk_inventory := by
  exact ⟨by rfl, by decide⟩

/-- C7 amended: every inventory accepted into the store satisfies
`0 ≤ reserved ≤ total`, `min_unit ≤ max_unit`, `step_size ≥ 1` and
`allocation_ratio > 0`; the bound `max_unit ≤ total - reserved` is not
enforced. -/
theorem C7_accepted_inventory_bounds (s : Store) (p rc : Nat) (inv : Inventory)
    (s2 : Store) (h : add_inventory s p rc inv = .ok s2) :
    inv.reserved ≤ inv.total ∧ inv.min_unit ≤ inv.max_unit ∧
    1 ≤ inv.step_size ∧ 0 < allocation_ratio inv := by
  obtain ⟨h1, h2, h3, h4, h5⟩ := (add_inventory_ok h).1
  refine ⟨h1, h2, h3, ?_⟩
  have hn : (0 : ℚ) < (inv.allocation_ratio_num : ℚ) := by exact_mod_cast h4
  have hd : (0 : ℚ) < (inv.allocation_ratio_den : ℚ) := by exact_mod_cast h5
  exact div_pos hn hd

/-- Witness for C7: the fixture's shared-storage inventory is accepted and
satisfies the amended bounds. -/
theorem C7_accepted_inventory_bounds_witness :
    ss_disk_inventory.reserved ≤ ss_disk_inventory.total ∧
    ss_disk_inventory.min_unit ≤ ss_disk_inventory.max_unit ∧
    1 ≤ ss_disk_inventory.step_size ∧ 0 < allocation_ratio ss_disk_inventory :=
  C7_accepted_inventory_bounds ⟨[], []⟩ 3 DISK_GB ss_disk_inventory
    ⟨[((3, DISK_GB), ss_disk_inventory)], []⟩ (by rfl)

/-- C8: in every reachable state the allocation table is keyed by
(consumer, provider, resource class): at most one row per triple, including
states produced by replaces whose submitted list repeats a triple. -/
theorem C8_alloc_table_keyed (s : Store) (h : Reachable s) : alloc_keys_unique s :=
  (reachable_all h).2.2

/-- Witness for C8: a replace submitting the same (provider, resource class)
twice for one consumer still produces a single row for the triple. -/
theorem C8_alloc_table_keyed_witness :
    alloc_keys_unique ⟨[((1, 3), ⟨2048, 0, 10, 600, 10, 1, 1⟩)], [⟨8, 1, 3, 500⟩]⟩ :=
  C8_alloc_table_keyed _
    (Reachable.replace
      (Reachable.add_inv Reachable.empty
        (show add_inventory ⟨[], []⟩ 1 3 ⟨2048, 0, 10, 600, 10, 1, 1⟩ =
            .ok ⟨[((1, 3), ⟨2048, 0, 10, 600, 10, 1, 1⟩)], []⟩ by rfl))
      (show replace_allocations ⟨[((1, 3), ⟨2048, 0, 10, 600, 10, 1, 1⟩)], []⟩ 8
          [(1, 3, 500), (1, 3, 200)] =
          .ok ⟨[((1, 3), ⟨2048, 0, 10, 600, 10, 1, 1⟩)], [⟨8, 1, 3, 500⟩]⟩ by rfl))

/-- C9: `replace_allocations` is idempotent: if a call succeeds, calling it
again with the same consumer and set succeeds and returns the same store, so
every (provider, resource class) usage is unchanged. -/
theorem C9_replace_idempotent (s : Store) (c : Nat) (ns : List (Nat × Nat × Nat))
    (s2 : Store) (h : replace_allocations s c ns = .ok s2) :
    replace_allocations s2 c ns = .ok s2 := by
  obtain ⟨rfl, hchecks⟩ := replace_ok h
  have hfilter : (replace_target s c ns).allocations.filter
      (fun a => decide (a.consumer ≠ c)) =
      s.allocations.filter (fun a => decide (a.consumer ≠ c)) := by
    simp only [replace_target]
    rw [List.filter_append]
    have h1 : (s.allocations.filter (fun a => decide (a.consumer ≠ c))).filter
        (fun a => decide (a.consumer ≠ c)) =
        s.allocations.filter (fun a => decide (a.consumer ≠ c)) := by
      rw [List.filter_filter]
      have hfun : (fun a : Allocation => decide (a.consumer ≠ c) && decide (a.consumer ≠ c)) =
          (fun a : Allocation => decide (a.consumer ≠ c)) := funext fun a => Bool.and_self _
      rw [hfun]
    have h2 : ((dedupe_rows ns []).map
        (fun r => (⟨c, r.1, r.2.1, r.2.2⟩ : Allocation))).filter
        (fun a => decide (a.consumer ≠ c)) = [] := by
      rw [List.filter_eq_nil_iff]
      intro a ha
      obtain ⟨r, hr, rfl⟩ := List.mem_map.mp ha
      simp
    rw [h1, h2, List.append_nil]
  have htarget : replace_target (replace_target s c ns) c ns = replace_target s c ns := by
    rw [show replace_target (replace_target s c ns) c ns =
        (⟨s.inventories,
          (replace_target s c ns).allocations.filter (fun a => decide (a.consumer ≠ c)) ++
            (dedupe_rows ns []).map (fun r => (⟨c, r.1, r.2.1, r.2.2⟩ : Allocation))⟩ : Store)
      from rfl, hfilter]
    rfl
  rw [replace_allocations, htarget, List.findSome?_eq_none_iff.mpr hchecks]

/-- Witness for C9 on a concrete successful replace. -/
theorem C9_replace_idempotent_witness :
    replace_allocations ⟨[((1, 3), ⟨2048, 0, 10, 600, 10, 1, 1⟩)], []⟩ 7 [(1, 3, 500)] =
      .ok ⟨[((1, 3), ⟨2048, 0, 10, 600, 10, 1, 1⟩)], [⟨7, 1, 3, 500⟩]⟩ ∧
    replace_allocations ⟨[((1, 3), ⟨2048, 0, 10, 600, 10, 1, 1⟩)], [⟨7, 1, 3, 500⟩]⟩ 7
      [(1, 3, 500)] =
      .ok ⟨[((1, 3), ⟨2048, 0, 10, 600, 10, 1, 1⟩)], [⟨7, 1, 3, 500⟩]⟩ :=
  ⟨by rfl,
   C9_replace_idempotent ⟨[((1, 3), ⟨2048, 0, 10, 600, 10, 1, 1⟩)], []⟩ 7 [(1, 3, 500)]
     ⟨[((1, 3), ⟨2048, 0, 10, 600, 10, 1, 1⟩)], [⟨7, 1, 3, 500⟩]⟩ (by rfl)⟩

/-- C10: two `SimpleDH` ends over the same prime and base agree on the
shared key: each side's `compute_shared` of the other's `get_public` equals
`g ^ (s1 * s2) mod p`, and both results lie below `p`. -/
theorem C10_simple_dh_shared_key (p g s1 s2 : Nat) (hp : Nat.Prime p) :
    (SimpleDH.mk p g s1).compute_shared ((SimpleDH.mk p g s2).get_public) =
      g ^ (s1 * s2) % p ∧
    (SimpleDH.mk p g s2).compute_shared ((SimpleDH.mk p g s1).get_public) =
      g ^ (s1 * s2) % p ∧
    (SimpleDH.mk p g s1).compute_shared ((SimpleDH.mk p g s2).get_public) =
      (SimpleDH.mk p g s2).compute_shared ((SimpleDH.mk p g s1).get_public) ∧
    (SimpleDH.mk p g s1).compute_shared ((SimpleDH.mk p g s2).get_public) < p ∧
    (SimpleDH.mk p g s2).compute_shared ((SimpleDH.mk p g s1).get_public) < p := by
  have key : ∀ a b : Nat, (g ^ a % p) ^ b % p = g ^ (b * a) % p := by
    intro a b
    rw [← Nat.pow_mod, ← pow_mul, Nat.mul_comm]
  have hpos : 0 < p := hp.pos
  have h1 : (SimpleDH.mk p g s1).compute_shared ((SimpleDH.mk p g s2).get_public) =
      g ^ (s1 * s2) % p := by
    show (g ^ s2 % p) ^ s1 % p = g ^ (s1 * s2) % p
    rw [key]
  have h2 : (SimpleDH.mk p g s2).compute_shared ((SimpleDH.mk p g s1).get_public) =
      g ^ (s1 * s2) % p := by
    show (g ^ s1 % p) ^ s2 % p = g ^ (s1 * s2) % p
    rw [key, Nat.mul_comm]
  refine ⟨h1, h2, h1.trans h2.symm, ?_, ?_⟩
  · show (g ^ s2 % p) ^ s1 % p < p
    exact Nat.mod_lt _ hpos
  · show (g ^ s1 % p) ^ s2 % p < p
    exact Nat.mod_lt _ hpos

/-- Witness for C10 at a concrete prime, base and secrets. -/
theorem C10_simple_dh_shared_key_witness :
    Nat.Prime 7 ∧
    (SimpleDH.mk 7 3 4).compute_shared ((SimpleDH.mk 7 3 5).get_public) = 3 ^ (4 * 5) % 7 :=
  ⟨by norm_num, (C10_simple_dh_shared_key 7 3 4 5 (by norm_num)).1⟩
